import Mathlib

/-!
Verification of the NHL goal-predictor feature pipeline.

This file gives a shallow embedding of the feature-engineering and
train/serve-consistency core of the repository:

* 2_process_data.py   — time-string conversion to seconds
* 3_train_model.py    — rolling player features, opponent goals-allowed,
                        opponent map, feature assembly, feature list
* 4_deduplicate_data.py — keyed deduplication of the record store
* predict_tonight.py / app.py — inference-time feature resolution,
                        feature-contract column selection, ranking

Pandas frames are embedded as Lean lists of structures, kept in frame
(ingestion) order.  pandas sort_values is embedded as a stable sort
(List.insertionSort); groupby/transform is embedded by computing, for each
row, its position inside the stable date-sorted list of its group.  NaN
cells are embedded as Option, with fillna(0) mapping none to 0.  Machine
floats of the source hold small integers and exact rolling means here, so
they are embedded as rationals.
-/

namespace NHLPred

/-! ## Generic list helpers mirroring pandas primitives -/

/-- pandas drop_duplicates with keep equal to first: keep the first
occurrence of every value, in original order.  The accumulator holds the
values already seen. -/
def distinctFirstAux [DecidableEq α] (seen : List α) : List α → List α
  | [] => []
  | a :: l =>
    if a ∈ seen then distinctFirstAux seen l
    else a :: distinctFirstAux (a :: seen) l

def distinctFirst [DecidableEq α] (l : List α) : List α :=
  distinctFirstAux [] l

theorem mem_distinctFirstAux [DecidableEq α] (x : α) :
    ∀ (l seen : List α), x ∈ distinctFirstAux seen l ↔ (x ∈ l ∧ x ∉ seen) := by
  intro l
  induction l with
  | nil => intro seen; simp [distinctFirstAux]
  | cons a t ih =>
    intro seen
    simp only [distinctFirstAux]
    by_cases ha : a ∈ seen
    · rw [if_pos ha, ih]
      constructor
      · rintro ⟨hx, hns⟩
        exact ⟨List.mem_cons_of_mem _ hx, hns⟩
      · rintro ⟨hx, hns⟩
        rcases List.mem_cons.mp hx with rfl | hx
        · exact absurd ha hns
        · exact ⟨hx, hns⟩
    · rw [if_neg ha]
      constructor
      · intro hmem
        rcases List.mem_cons.mp hmem with rfl | hmem
        · exact ⟨List.mem_cons_self _ _, ha⟩
        · obtain ⟨hx, hns⟩ := (ih (a :: seen)).mp hmem
          exact ⟨List.mem_cons_of_mem _ hx,
            fun hs => hns (List.mem_cons_of_mem _ hs)⟩
      · rintro ⟨hx, hns⟩
        rcases List.mem_cons.mp hx with rfl | hx
        · exact List.mem_cons_self _ _
        · by_cases hxa : x = a
          · exact hxa ▸ List.mem_cons_self _ _
          · refine List.mem_cons_of_mem _ ((ih (a :: seen)).mpr ⟨hx, ?_⟩)
            intro hs
            rcases List.mem_cons.mp hs with h | h
            · exact hxa h
            · exact hns h

theorem mem_distinctFirst [DecidableEq α] {x : α} {l : List α} :
    x ∈ distinctFirst l ↔ x ∈ l := by
  simp [distinctFirst, mem_distinctFirstAux]

theorem nodup_distinctFirstAux [DecidableEq α] :
    ∀ (l seen : List α), (distinctFirstAux seen l).Nodup := by
  intro l
  induction l with
  | nil => intro seen; simp [distinctFirstAux]
  | cons a t ih =>
    intro seen
    by_cases ha : a ∈ seen
    · simpa [distinctFirstAux, if_pos ha] using ih seen
    · simp only [distinctFirstAux, if_neg ha, List.nodup_cons]
      refine ⟨fun hmem => ?_, ih (a :: seen)⟩
      exact ((mem_distinctFirstAux a t (a :: seen)).mp hmem).2 (List.mem_cons_self a seen)

theorem nodup_distinctFirst [DecidableEq α] (l : List α) :
    (distinctFirst l).Nodup :=
  nodup_distinctFirstAux l []

/-- pandas drop_duplicates on a key with keep equal to last: a row is kept
iff no later row carries the same key; kept rows stay in original order. -/
def dropDupLast (key : α → κ) [DecidableEq κ] : List α → List α
  | [] => []
  | a :: l =>
    if key a ∈ l.map key then dropDupLast key l
    else a :: dropDupLast key l

theorem dropDupLast_sublist (key : α → κ) [DecidableEq κ] :
    ∀ l : List α, (dropDupLast key l).Sublist l := by
  intro l
  induction l with
  | nil => simp [dropDupLast]
  | cons a t ih =>
    simp only [dropDupLast]
    by_cases h : key a ∈ t.map key
    · rw [if_pos h]; exact ih.cons a
    · rw [if_neg h]; exact ih.cons₂ a

theorem mem_map_dropDupLast (key : α → κ) [DecidableEq κ] :
    ∀ (l : List α) (k : κ), k ∈ (dropDupLast key l).map key ↔ k ∈ l.map key := by
  intro l
  induction l with
  | nil => intro k; simp [dropDupLast]
  | cons a t ih =>
    intro k
    simp only [dropDupLast]
    by_cases h : key a ∈ t.map key
    · rw [if_pos h, ih, List.map_cons]
      constructor
      · exact List.mem_cons_of_mem _
      · intro hk
        rcases List.mem_cons.mp hk with rfl | hk
        · exact h
        · exact hk
    · rw [if_neg h, List.map_cons, List.map_cons]
      simp only [List.mem_cons, ih]

theorem dropDupLast_eq_self_of_nodup (key : α → κ) [DecidableEq κ] :
    ∀ l : List α, (l.map key).Nodup → dropDupLast key l = l := by
  intro l
  induction l with
  | nil => intro _; rfl
  | cons a t ih =>
    intro hnd
    rw [List.map_cons, List.nodup_cons] at hnd
    rw [dropDupLast, if_neg hnd.1, ih hnd.2]

theorem dropDupLast_idem (key : α → κ) [DecidableEq κ] :
    ∀ l : List α, dropDupLast key (dropDupLast key l) = dropDupLast key l := by
  intro l
  induction l with
  | nil => rfl
  | cons a t ih =>
    by_cases h : key a ∈ t.map key
    · rw [dropDupLast, if_pos h, ih]
    · rw [dropDupLast, if_neg h, dropDupLast,
        if_neg (fun hm => h ((mem_map_dropDupLast key t (key a)).mp hm)), ih]

/-- A Nodup list whose only element satisfying p is x, with x a member,
filters to the singleton [x]. -/
theorem filter_eq_singleton_of_unique {α : Type} {p : α → Bool} :
    ∀ (l : List α), l.Nodup → ∀ x ∈ l, p x = true →
      (∀ y ∈ l, p y = true → y = x) → l.filter p = [x] := by
  intro l
  induction l with
  | nil => intro _ x hx; exact absurd hx (List.not_mem_nil x)
  | cons a t ih =>
    intro hnd x hx hpx huniq
    rw [List.nodup_cons] at hnd
    by_cases hpa : p a = true
    · have hax : a = x := huniq a (List.mem_cons_self a t) hpa
      subst hax
      have ht : t.filter p = [] := by
        rw [List.filter_eq_nil_iff]
        intro y hy hpy
        have : y = a := huniq y (List.mem_cons_of_mem _ hy) hpy
        exact hnd.1 (this ▸ hy)
      rw [List.filter_cons_of_pos hpa, ht]
    · have hxt : x ∈ t := by
        rcases List.mem_cons.mp hx with rfl | h
        · exact absurd hpx hpa
        · exact h
      rw [List.filter_cons_of_neg hpa]
      exact ih hnd.2 x hxt hpx (fun y hy hpy => huniq y (List.mem_cons_of_mem _ hy) hpy)

theorem filter_flatMap {α β : Type} (p : β → Bool) (f : α → List β) :
    ∀ l : List α, (l.flatMap f).filter p = l.flatMap (fun a => (f a).filter p) := by
  intro l
  induction l with
  | nil => rfl
  | cons a t ih => simp [List.flatMap_cons, List.filter_append, ih]

theorem flatMap_eq_flatMap_filter {α β : Type} (c : α → Bool) (f : α → List β) :
    ∀ l : List α, (∀ a, c a = false → f a = []) →
      l.flatMap f = (l.filter c).flatMap f := by
  intro l
  induction l with
  | nil => intro _; rfl
  | cons a t ih =>
    intro hz
    rcases Bool.eq_false_or_eq_true (c a) with hc | hc
    · rw [List.filter_cons_of_pos hc, List.flatMap_cons, List.flatMap_cons, ih hz]
    · rw [List.flatMap_cons, hz a hc, List.nil_append, ih hz,
        List.filter_cons_of_neg (by simp [hc])]

/-! ## Rolling mean with shift, as in
    x.rolling(window=N, min_periods=1).mean().shift(1)  (3_train_model.py) -/

/-- The value of rolling(window=N, min_periods=1).mean() at position i:
the mean of the window of up to N entries ending at i (all defined because
min_periods is 1). -/
def windowMean (N : Nat) (xs : List ℚ) (i : Nat) : ℚ :=
  let w := (xs.take (i + 1)).drop (i + 1 - N)
  w.sum / (w.length : ℚ)

def rollingMeanList (N : Nat) (xs : List ℚ) : List ℚ :=
  (List.range xs.length).map (windowMean N xs)

/-- Series.shift(1): the first cell becomes NaN (none), cell i takes the
value previously at i - 1. -/
def shift1 (l : List ℚ) : List (Option ℚ) :=
  (List.range l.length).map (fun i => if i = 0 then none else l[i-1]?)

/-- fillna(0) on one cell. -/
def fillna0 (x : Option ℚ) : ℚ := x.getD 0

/-- The whole per-group feature column of the rolling loop in
3_train_model.py lines 14-17 (with the NaN of the first row already sent
to 0, as line 40 df.fillna(0) does). -/
def avgLastN (N : Nat) (xs : List ℚ) : List ℚ :=
  (shift1 (rollingMeanList N xs)).map fillna0

theorem length_avgLastN (N : Nat) (xs : List ℚ) :
    (avgLastN N xs).length = xs.length := by
  simp [avgLastN, shift1, rollingMeanList]

theorem avgLastN_get (N : Nat) (xs : List ℚ) (i : Nat)
    (h : i < (avgLastN N xs).length) :
    (avgLastN N xs).get ⟨i, h⟩ =
      if i = 0 then 0
      else ((xs.take i).drop (i - N)).sum / (((xs.take i).drop (i - N)).length : ℚ) := by
  have hx : i < xs.length := by
    have := h; rwa [length_avgLastN] at this
  have hlen : (rollingMeanList N xs).length = xs.length := by
    simp [rollingMeanList]
  simp only [avgLastN, List.get_eq_getElem, List.getElem_map, shift1,
    List.getElem_range, rollingMeanList]
  rcases Nat.eq_zero_or_pos i with rfl | hi
  · simp [fillna0]
  · have hne : i ≠ 0 := Nat.pos_iff_ne_zero.mp hi
    have hlt : i - 1 < xs.length := lt_of_le_of_lt (Nat.sub_le i 1) hx
    rw [if_neg hne, if_neg hne]
    have : ((List.range xs.length).map (windowMean N xs))[i-1]? =
        some (windowMean N xs (i - 1)) := by
      rw [List.getElem?_map, List.getElem?_range hlt]
      rfl
    rw [this]
    have hsucc : i - 1 + 1 = i := Nat.succ_pred_eq_of_pos hi
    simp only [fillna0, Option.getD_some, windowMean, hsucc]

theorem take_drop_window_length (xs : List ℚ) (i N : Nat) (h : i ≤ xs.length) :
    ((xs.take i).drop (i - N)).length = min i N := by
  simp only [List.length_drop, List.length_take]
  omega

/-! ## Data model: one Observation per player per game
    (nhl_processed_stats.csv rows: durations already in seconds, numeric). -/

structure Obs where
  game_id : Nat
  date : Nat
  player_id : Nat
  player_name : String
  team : String
  goals : Int
  assists : Int
  shots : Int
  hits : Int
  blocked_shots : Int
  penalty_minutes : Int
  time_on_ice : Int
  powerplay_toi : Int
  shorthanded_toi : Int
deriving DecidableEq, Repr

/-- Stable comparison used for sort_values(by=[Player_ID, Date]) followed by
groupby(Player_ID): inside one player group, rows are ordered by date with
the stable tie-break keeping frame order. -/
def obsDateLe (a b : Obs) : Prop := a.date ≤ b.date

instance : DecidableRel obsDateLe := fun a b => Nat.decLe a.date b.date

/-- The date-sorted stat sequence of one player, as the rolling loop of
3_train_model.py sees it: filter the frame to the player (frame order =
ingestion order), stable-sort by date, project the stat column to ℚ. -/
def playerStatSeq (f : Obs → Int) (df : List Obs) (pid : Nat) : List ℚ :=
  ((df.filter (fun o => o.player_id = pid)).insertionSort obsDateLe).map
    (fun o => (f o : ℚ))

/-- The per-player rolling feature column Avg_stat_Last_N, aligned with the
date-sorted rows of that player. -/
def avgFeatureSeq (N : Nat) (f : Obs → Int) (df : List Obs) (pid : Nat) : List ℚ :=
  avgLastN N (playerStatSeq f df pid)

/-- Three chronologically ordered observations of player 7 with shots 2, 4, 6
(the spec example for C2). -/
def exC2df : List Obs :=
  [ { game_id := 1, date := 1, player_id := 7, player_name := "P", team := "A",
      goals := 0, assists := 0, shots := 2, hits := 0, blocked_shots := 0,
      penalty_minutes := 0, time_on_ice := 0, powerplay_toi := 0, shorthanded_toi := 0 },
    { game_id := 2, date := 2, player_id := 7, player_name := "P", team := "A",
      goals := 0, assists := 0, shots := 4, hits := 0, blocked_shots := 0,
      penalty_minutes := 0, time_on_ice := 0, powerplay_toi := 0, shorthanded_toi := 0 },
    { game_id := 3, date := 3, player_id := 7, player_name := "P", team := "A",
      goals := 0, assists := 0, shots := 6, hits := 0, blocked_shots := 0,
      penalty_minutes := 0, time_on_ice := 0, powerplay_toi := 0, shorthanded_toi := 0 } ]

/-- Claim C2: with a player's observations sorted by date ascending (stable
tie-break), the Temporal Feature Builder attaches to row i the trailing
simple moving average over the min(i, N) rows strictly before row i
(window N = 10, min_periods = 1, shifted by one); the first row gets 0
rather than null, and shots [2, 4, 6] yield Avg_Shots_Last_10 = [0, 2, 3]. -/
theorem rolling_feature_is_shifted_trailing_mean :
    avgFeatureSeq 10 (fun o => o.shots) exC2df 7 = [0, 2, 3] ∧
    ∀ (f : Obs → Int) (df : List Obs) (pid : Nat) (i : Nat)
      (h : i < (avgFeatureSeq 10 f df pid).length),
      (avgFeatureSeq 10 f df pid).get ⟨i, h⟩ =
        if i = 0 then 0
        else (((playerStatSeq f df pid).take i).drop (i - 10)).sum
               / ((min i 10 : Nat) : ℚ) := by
  constructor
  · have hseq : playerStatSeq (fun o => o.shots) exC2df 7 = [2, 4, 6] := by decide
    rw [avgFeatureSeq, hseq]
    simp [avgLastN, shift1, rollingMeanList, windowMean, fillna0, List.range_succ]
    norm_num
  · intro f df pid i h
    have hx : i < (playerStatSeq f df pid).length := by
      have := h; rwa [avgFeatureSeq, length_avgLastN] at this
    unfold avgFeatureSeq at h ⊢
    rw [avgLastN_get 10 (playerStatSeq f df pid) i h]
    rcases Nat.eq_zero_or_pos i with rfl | hi
    · simp
    · have hne : i ≠ 0 := Nat.pos_iff_ne_zero.mp hi
      rw [if_neg hne, if_neg hne,
        take_drop_window_length (playerStatSeq f df pid) i 10 (le_of_lt hx)]

/-- Witness for C2: at i = 2 for the example frame, the feature value is the
mean of the two prior shots, (2 + 4) / 2 = 3. -/
theorem rolling_feature_is_shifted_trailing_mean_witness :
    ∃ h : 2 < (avgFeatureSeq 10 (fun o => o.shots) exC2df 7).length,
      (avgFeatureSeq 10 (fun o => o.shots) exC2df 7).get ⟨2, h⟩ = 3 := by
  have hlen : (avgFeatureSeq 10 (fun o => o.shots) exC2df 7).length = 3 := by
    have hseq : playerStatSeq (fun o => o.shots) exC2df 7 = [2, 4, 6] := by decide
    rw [avgFeatureSeq, length_avgLastN, hseq]; rfl
  refine ⟨by omega, ?_⟩
  rw [(rolling_feature_is_shifted_trailing_mean).2 (fun o => o.shots) exC2df 7 2 (by omega)]
  have hseq : playerStatSeq (fun o => o.shots) exC2df 7 = [2, 4, 6] := by decide
  rw [hseq]
  norm_num

/-! ## Opponent Strength Aggregator (3_train_model.py lines 18-32) -/

/-- One row of team_goals = df.groupby([Game_ID, Team, Date])[Goals].sum(). -/
structure TG where
  game_id : Nat
  team : String
  date : Nat
  goals : Int
deriving DecidableEq, Repr

/-- One row of team_defensive_stats (before the rolling column). -/
structure TDS where
  date : Nat
  game_id : Nat
  team : String
  goals_allowed : Int
deriving DecidableEq, Repr

def obsKey (o : Obs) : Nat × String × Nat := (o.game_id, o.team, o.date)

/-- Total goals of team T in game g (used to state claim C3). -/
def teamGoalsFor (df : List Obs) (g : Nat) (T : String) : Int :=
  ((df.filter (fun o => o.game_id = g ∧ o.team = T)).map (fun o => o.goals)).sum

/-- df.groupby([Game_ID, Team, Date])[Goals].sum().reset_index()
one row per distinct (game, team, date) key, goals summed over the rows of
that key.  (pandas orders the grouped rows by sorted key; the row order of
this frame is irrelevant to every property below, so the keys are kept in
first-occurrence order.) -/
def teamGoals (df : List Obs) : List TG :=
  (distinctFirst (df.map obsKey)).map (fun k =>
    { game_id := k.1, team := k.2.1, date := k.2.2,
      goals := ((df.filter (fun o => obsKey o = k)).map (fun o => o.goals)).sum })

/-- pd.merge(team_goals, team_goals, on=Game_ID): every pair of grouped rows
sharing a game_id. -/
def mergedGoals (tg : List TG) : List (TG × TG) :=
  tg.flatMap (fun a => (tg.filter (fun b => b.game_id = a.game_id)).map (fun b => (a, b)))

/-- goals_allowed = merged[Team_team != Team_opp] followed by the column
selection/rename into team_defensive_stats (lines 21-24): for each pair of
different teams in one game, the first team is charged the goals of the
second. -/
def teamDefensiveStats (df : List Obs) : List TDS :=
  ((mergedGoals (teamGoals df)).filter (fun p => p.1.team ≠ p.2.team)).map
    (fun p => { date := p.1.date, game_id := p.1.game_id, team := p.1.team,
                goals_allowed := p.2.goals })

/-- Lines 29-32: opponent_map rows (Game_ID, Team, Opponent) from the
self-merge of the distinct (Game_ID, Team) pairs, keeping pairs of
different teams. -/
def opponentMap (df : List Obs) : List (Nat × String × String) :=
  let gt := distinctFirst (df.map (fun o => (o.game_id, o.team)))
  gt.flatMap (fun a =>
    (gt.filter (fun b => b.1 = a.1 ∧ b.2 ≠ a.2)).map (fun b => (a.1, a.2, b.2)))

/-- sort_values(by=[Team, Date]) order for team_defensive_stats (line 25),
embedded as a stable sort. -/
def tdsTeamDateLe (a b : TDS) : Prop :=
  a.team < b.team ∨ (a.team = b.team ∧ a.date ≤ b.date)

instance : DecidableRel tdsTeamDateLe := fun a b =>
  inferInstanceAs (Decidable (a.team < b.team ∨ (a.team = b.team ∧ a.date ≤ b.date)))

/-- Lines 25-28: the Opp_GA_Avg_Last_N column.  The frame is sorted by
(Team, Date); groupby(Team).transform(rolling(N, min_periods=1).mean().shift(1))
attaches to each row the shifted rolling mean at its position inside its
(date-sorted) team group.  Cells are Option: the first row of a team is NaN
here and is only zeroed by the later df.fillna(0). -/
def tdsOppGA (N : Nat) (tds : List TDS) : List (TDS × Option ℚ) :=
  let s := (tds.insertionSort tdsTeamDateLe).enum
  s.map (fun j =>
    let grp := s.filter (fun p => p.2.team = j.2.team)
    let xs := grp.map (fun p => ((p.2.goals_allowed : ℚ)))
    let pos := grp.findIdx (fun p => p.1 = j.1)
    (j.2, ((shift1 (rollingMeanList N xs))[pos]?).join))

/-! ## Temporal Feature Builder applied to the whole frame, and the
    Feature Assembler (3_train_model.py lines 11-17 and 33-51) -/

/-- Stable (Player_ID, Date) order used by sort_values(by=[Player_ID, Date])
before the groupby — on an enumerated frame so each row keeps its identity. -/
def idxObsDateLe (a b : Nat × Obs) : Prop := a.2.date ≤ b.2.date

instance : DecidableRel idxObsDateLe := fun a b => Nat.decLe a.2.date b.2.date

/-- The rolling feature column for one stat, aligned with the original frame
order (groupby().transform writes each value back to its source row): row j
receives the shifted rolling mean at its position inside its player group,
the group being stably date-sorted. -/
def avgColumn (N : Nat) (f : Obs → Int) (df : List Obs) : List (Option ℚ) :=
  (df.enum).map (fun j =>
    let grp := ((df.enum).filter (fun p => p.2.player_id = j.2.player_id)).insertionSort idxObsDateLe
    let xs := grp.map (fun p => ((f p.2 : ℚ)))
    let pos := grp.findIdx (fun p => p.1 = j.1)
    ((shift1 (rollingMeanList N xs))[pos]?).join)

/-- One frame row after the five rolling-feature columns of lines 14-17 are
attached. -/
structure AvgRow where
  obs : Obs
  avg_goals : Option ℚ
  avg_shots : Option ℚ
  avg_time_on_ice : Option ℚ
  avg_powerplay : Option ℚ
  avg_hits : Option ℚ
deriving DecidableEq, Repr

def withAvgs (N : Nat) (df : List Obs) : List AvgRow :=
  (df.enum).map (fun j =>
    { obs := j.2,
      avg_goals := (avgColumn N (fun o => o.goals) df).getD j.1 none,
      avg_shots := (avgColumn N (fun o => o.shots) df).getD j.1 none,
      avg_time_on_ice := (avgColumn N (fun o => o.time_on_ice) df).getD j.1 none,
      avg_powerplay := (avgColumn N (fun o => o.powerplay_toi) df).getD j.1 none,
      avg_hits := (avgColumn N (fun o => o.hits) df).getD j.1 none })

/-- Line 34: df = pd.merge(df, opponent_map, on=[Game_ID, Team], how=left).
A row with no opponent-map match keeps one copy with Opponent = NaN; a row
with k matches is duplicated k times. -/
def withOpponent (df : List Obs) (N : Nat) : List (AvgRow × Option String) :=
  (withAvgs N df).flatMap (fun r =>
    let ms := (opponentMap df).filter
      (fun m => m.1 = r.obs.game_id ∧ m.2.1 = r.obs.team)
    if ms.isEmpty then [(r, none)] else ms.map (fun m => (r, some m.2.2)))

/-- Lines 35-37: left-merge of the Opp_GA_Avg column on
(Game_ID, Opponent) = (Game_ID, Team).  A NaN Opponent matches nothing
(pandas merge keys never match on NaN), so such rows keep a NaN feature. -/
def withOppGA (df : List Obs) (N : Nat) : List (AvgRow × Option ℚ) :=
  (withOpponent df N).flatMap (fun rm =>
    match rm.2 with
    | none => [(rm.1, none)]
    | some opp =>
      let gas := (tdsOppGA N (teamDefensiveStats df)).filter
        (fun t => t.1.game_id = rm.1.obs.game_id ∧ t.1.team = opp)
      if gas.isEmpty then [(rm.1, none)] else gas.map (fun t => (rm.1, t.2)))

/-- The columns of X = df[features] (3_train_model.py lines 45-51), one
vector per assembled row, after line 40 df.fillna(0). -/
structure FeatureVec where
  shots : Int
  hits : Int
  blocked_shots : Int
  penalty_minutes : Int
  time_on_ice : Int
  powerplay_toi : Int
  shorthanded_toi : Int
  avg_goals : ℚ
  avg_shots : ℚ
  avg_time_on_ice : ℚ
  avg_powerplay : ℚ
  avg_hits : ℚ
  opp_ga_avg : ℚ
deriving DecidableEq, Repr

/-- The full training feature matrix: feature engineering (lines 11-40)
followed by the column selection of the features list (lines 45-51).  The
first seven columns are raw stats of the row's own game. -/
def featureMatrix (N : Nat) (df : List Obs) : List FeatureVec :=
  (withOppGA df N).map (fun rg =>
    let o := rg.1.obs
    { shots := o.shots, hits := o.hits, blocked_shots := o.blocked_shots,
      penalty_minutes := o.penalty_minutes, time_on_ice := o.time_on_ice,
      powerplay_toi := o.powerplay_toi, shorthanded_toi := o.shorthanded_toi,
      avg_goals := fillna0 rg.1.avg_goals, avg_shots := fillna0 rg.1.avg_shots,
      avg_time_on_ice := fillna0 rg.1.avg_time_on_ice,
      avg_powerplay := fillna0 rg.1.avg_powerplay,
      avg_hits := fillna0 rg.1.avg_hits, opp_ga_avg := fillna0 rg.2 })

/-- A single observation: player 1 in game 1 with 5 shots. -/
def exC1obs : Obs :=
  { game_id := 1, date := 1, player_id := 1, player_name := "P", team := "A",
    goals := 1, assists := 0, shots := 5, hits := 2, blocked_shots := 1,
    penalty_minutes := 0, time_on_ice := 900, powerplay_toi := 120,
    shorthanded_toi := 0 }

def exC1df : List Obs := [exC1obs]

/-- The same record store with the shots of that same game changed 5 → 7. -/
def exC1mut : List Obs := [{ exC1obs with shots := 7 }]

/-- Claim C1 (refuted — code bug): the feature vector attached to a game G is
NOT a function of observations dated strictly before G only.  The Shots
column of X (3_train_model.py line 46) is read from game G itself: for a
store holding a single observation of game 1 with 5 shots, the feature
vector of that game carries Shots = 5, and mutating the shots of that very
game to 7 changes the feature vector to Shots = 7.  The same holds for
Hits, Blocked_Shots, Penalty_Minutes and the three TOI columns. -/
theorem same_game_stats_leak_into_features :
    (featureMatrix 10 exC1df).map (fun v => v.shots) = [5] ∧
    (featureMatrix 10 exC1mut).map (fun v => v.shots) = [7] ∧
    exC1mut = [{ exC1obs with shots := 7 }] := by
  refine ⟨?_, ?_, rfl⟩ <;> decide

/-- A malformed game: three distinct teams share game_id 1. -/
def exC3df : List Obs :=
  [ { game_id := 1, date := 4, player_id := 1, player_name := "a", team := "A",
      goals := 3, assists := 0, shots := 0, hits := 0, blocked_shots := 0,
      penalty_minutes := 0, time_on_ice := 0, powerplay_toi := 0, shorthanded_toi := 0 },
    { game_id := 1, date := 4, player_id := 2, player_name := "b", team := "B",
      goals := 1, assists := 0, shots := 0, hits := 0, blocked_shots := 0,
      penalty_minutes := 0, time_on_ice := 0, powerplay_toi := 0, shorthanded_toi := 0 },
    { game_id := 1, date := 4, player_id := 3, player_name := "c", team := "C",
      goals := 2, assists := 0, shots := 0, hits := 0, blocked_shots := 0,
      penalty_minutes := 0, time_on_ice := 0, powerplay_toi := 0, shorthanded_toi := 0 } ]

/-- Counterexample to C3: a game whose observations contain three distinct
teams is not excluded from the goals-allowed and opponent tables; team A of
game 1 gets two goals-allowed rows (one per other team) and two opponent
rows, i.e. duplicated rows instead of none. -/
theorem three_team_game_not_excluded :
    ((teamDefensiveStats exC3df).filter
        (fun t => t.game_id = 1 ∧ t.team = "A")).length = 2 ∧
    ((opponentMap exC3df).filter
        (fun m => m.1 = 1 ∧ m.2.1 = "A")).length = 2 := by
  constructor <;> decide

/-! ## C3: goals allowed in well-formed two-team games -/

def goalsOfKey (df : List Obs) (k : Nat × String × Nat) : Int :=
  ((df.filter (fun o => obsKey o = k)).map (fun o => o.goals)).sum

def tgRow (df : List Obs) (k : Nat × String × Nat) : TG :=
  { game_id := k.1, team := k.2.1, date := k.2.2, goals := goalsOfKey df k }

theorem teamGoals_eq_map (df : List Obs) :
    teamGoals df = (distinctFirst (df.map obsKey)).map (tgRow df) := rfl

theorem tgRow_injective (df : List Obs) : Function.Injective (tgRow df) := by
  rintro ⟨g1, t1, d1⟩ ⟨g2, t2, d2⟩ h
  have h1 : g1 = g2 := congrArg TG.game_id h
  have h2 : t1 = t2 := congrArg TG.team h
  have h3 : d1 = d2 := congrArg TG.date h
  simp [h1, h2, h3]

theorem nodup_teamGoals (df : List Obs) : (teamGoals df).Nodup := by
  rw [teamGoals_eq_map]
  exact (nodup_distinctFirst (df.map obsKey)).map (tgRow_injective df)

theorem mem_teamGoals_iff (df : List Obs) (x : TG) :
    x ∈ teamGoals df ↔ ∃ k ∈ df.map obsKey, tgRow df k = x := by
  rw [teamGoals_eq_map, List.mem_map]
  constructor
  · rintro ⟨k, hk, rfl⟩
    exact ⟨k, mem_distinctFirst.mp hk, rfl⟩
  · rintro ⟨k, hk, rfl⟩
    exact ⟨k, mem_distinctFirst.mpr hk, rfl⟩

theorem goalsOfKey_eq_teamGoalsFor (df : List Obs) (g : Nat) (T : String) (d : Nat)
    (hd : ∀ o ∈ df, o.game_id = g → o.team = T → o.date = d) :
    goalsOfKey df (g, T, d) = teamGoalsFor df g T := by
  unfold goalsOfKey teamGoalsFor
  congr 1
  apply congrArg
  apply List.filter_congr
  intro o ho
  simp only [decide_eq_decide, obsKey, Prod.mk.injEq]
  constructor
  · rintro ⟨h1, h2, _⟩
    exact ⟨h1, h2⟩
  · rintro ⟨h1, h2⟩
    exact ⟨h1, h2, hd o ho h1 h2⟩

/-- In a game g whose observations all belong to team A at date dA or team B
at date dB, the grouped team_goals rows of game g are exactly the A row and
the B row. -/
theorem teamGoals_game_char (df : List Obs) (g : Nat) (A B : String) (dA dB : Nat)
    (hshape : ∀ o ∈ df, o.game_id = g →
      (o.team = A ∧ o.date = dA) ∨ (o.team = B ∧ o.date = dB)) :
    ∀ y ∈ teamGoals df, y.game_id = g →
      y = tgRow df (g, A, dA) ∨ y = tgRow df (g, B, dB) := by
  intro y hy hg
  obtain ⟨k, hk, rfl⟩ := (mem_teamGoals_iff df y).mp hy
  obtain ⟨o, ho, hok⟩ := List.mem_map.mp hk
  have hgame : o.game_id = g := by
    have : (tgRow df k).game_id = k.1 := rfl
    rw [this] at hg
    rw [← hok] at hg
    exact hg
  rcases hshape o ho hgame with ⟨ht, hd⟩ | ⟨ht, hd⟩
  · left
    have : k = (g, A, dA) := by rw [← hok, obsKey, hgame, ht, hd]
    rw [this]
  · right
    have : k = (g, B, dB) := by rw [← hok, obsKey, hgame, ht, hd]
    rw [this]

theorem tgRow_mem_of_key (df : List Obs) (k : Nat × String × Nat)
    (hk : k ∈ df.map obsKey) : tgRow df k ∈ teamGoals df :=
  (mem_teamGoals_iff df (tgRow df k)).mpr ⟨k, hk, rfl⟩

theorem countP_flatMap {α β : Type} (p : β → Bool) (f : α → List β) :
    ∀ l : List α, (l.flatMap f).countP p = (l.map (fun a => (f a).countP p)).sum := by
  intro l
  induction l with
  | nil => rfl
  | cons a t ih => simp [List.flatMap_cons, List.countP_append, ih]

theorem sum_map_eq_one {α : Type} (l : List α) (f : α → Nat) (x : α)
    (hnd : l.Nodup) (hx : x ∈ l) (hfx : f x = 1)
    (h0 : ∀ y ∈ l, y ≠ x → f y = 0) : (l.map f).sum = 1 := by
  induction l with
  | nil => cases hx
  | cons a t ih =>
    rw [List.map_cons, List.sum_cons]
    rw [List.nodup_cons] at hnd
    rcases List.mem_cons.mp hx with rfl | hxt
    · have hz : (t.map f).sum = 0 := by
        apply List.sum_eq_zero
        intro n hn
        obtain ⟨y, hy, rfl⟩ := List.mem_map.mp hn
        exact h0 y (List.mem_cons_of_mem _ hy) (fun he => hnd.1 (he ▸ hy))
      rw [hfx, hz]
    · have hax : a ≠ x := fun he => hnd.1 (he ▸ hxt)
      rw [h0 a (List.mem_cons_self a t) hax,
        ih hnd.2 hxt (fun y hy hne => h0 y (List.mem_cons_of_mem _ hy) hne)]

theorem filter_eq_singleton_of_countP {α : Type} {p : α → Bool} (L : List α) (x : α)
    (hu : ∀ y ∈ L, p y = true → y = x) (hc : L.countP p = 1) :
    L.filter p = [x] := by
  have hlen : (L.filter p).length = 1 := by
    rw [← List.countP_eq_length_filter]
    exact hc
  obtain ⟨z, hz⟩ := List.length_eq_one.mp hlen
  have hzm : z ∈ L.filter p := by rw [hz]; exact List.mem_singleton.mpr rfl
  have hm := List.mem_filter.mp hzm
  rw [hz, hu z hm.1 hm.2]

theorem countP_eq_one_of_unique {α : Type} {p : α → Bool} (l : List α) (x : α)
    (hnd : l.Nodup) (hx : x ∈ l) (hpx : p x = true)
    (hu : ∀ y ∈ l, p y = true → y = x) : l.countP p = 1 := by
  rw [List.countP_eq_length_filter, filter_eq_singleton_of_unique l hnd x hx hpx hu]
  rfl

/-- The team_defensive_stats rows satisfying a predicate form exactly one row
when exactly one ordered pair of distinct grouped team rows in one game
produces a row satisfying it. -/
theorem tds_filter_singleton (df : List Obs) (pb : TDS → Bool) (a0 b0 : TG)
    (ha0 : a0 ∈ teamGoals df) (hb0 : b0 ∈ teamGoals df)
    (hgame : b0.game_id = a0.game_id)
    (hdiff : ¬ a0.team = b0.team)
    (hp0 : pb { date := a0.date, game_id := a0.game_id, team := a0.team,
                goals_allowed := b0.goals } = true)
    (huniq : ∀ a b : TG, a ∈ teamGoals df → b ∈ teamGoals df →
      b.game_id = a.game_id → ¬ a.team = b.team →
      pb { date := a.date, game_id := a.game_id, team := a.team,
           goals_allowed := b.goals } = true →
      a = a0 ∧ b = b0) :
    (teamDefensiveStats df).filter pb =
      [{ date := a0.date, game_id := a0.game_id, team := a0.team,
         goals_allowed := b0.goals }] := by
  have hnd : (teamGoals df).Nodup := nodup_teamGoals df
  apply filter_eq_singleton_of_countP
  · intro t ht hpt
    unfold teamDefensiveStats at ht
    obtain ⟨pr, hpr, rfl⟩ := List.mem_map.mp ht
    have hprf := List.mem_filter.mp hpr
    have hmem := hprf.1
    unfold mergedGoals at hmem
    obtain ⟨a, ha, hin⟩ := List.mem_flatMap.mp hmem
    obtain ⟨b, hbf, hab⟩ := List.mem_map.mp hin
    have hbfm := List.mem_filter.mp hbf
    have hbg : b.game_id = a.game_id := of_decide_eq_true hbfm.2
    subst hab
    have hne : ¬ a.team = b.team := of_decide_eq_true hprf.2
    obtain ⟨haa, hbb⟩ := huniq a b ha hbfm.1 hbg hne hpt
    rw [haa, hbb]
  · unfold teamDefensiveStats mergedGoals
    rw [List.countP_map, List.countP_filter, countP_flatMap]
    apply sum_map_eq_one _ _ a0 hnd ha0
    · rw [List.countP_map, List.countP_filter]
      apply countP_eq_one_of_unique (teamGoals df) b0 hnd hb0
      · simp only [Function.comp_apply, Bool.and_eq_true, decide_eq_true_eq]
        exact ⟨⟨hp0, hdiff⟩, hgame⟩
      · intro y hy hpy
        simp only [Function.comp_apply, Bool.and_eq_true, decide_eq_true_eq] at hpy
        exact (huniq a0 y ha0 hy hpy.2 hpy.1.2 hpy.1.1).2
    · intro y hy hne
      rw [List.countP_map, List.countP_filter, List.countP_eq_zero]
      intro b hb hpb
      simp only [Function.comp_apply, Bool.and_eq_true, decide_eq_true_eq] at hpb
      exact hne (huniq y b hy hb hpb.2 hpb.1.2 hpb.1.1).1

/-- The core of C3, one direction: in a two-team game the filtered
team_defensive_stats rows of (g, A) form exactly one row charging A with
the summed goals of B. -/
theorem tds_two_team_filter (df : List Obs) (g : Nat) (A B : String) (dA dB : Nat)
    (hAB : A ≠ B)
    (hshape : ∀ o ∈ df, o.game_id = g →
      (o.team = A ∧ o.date = dA) ∨ (o.team = B ∧ o.date = dB))
    (hA : (g, A, dA) ∈ df.map obsKey)
    (hB : (g, B, dB) ∈ df.map obsKey) :
    (teamDefensiveStats df).filter (fun t => t.game_id = g ∧ t.team = A) =
      [{ date := dA, game_id := g, team := A, goals_allowed := teamGoalsFor df g B }] := by
  have hrowA : tgRow df (g, A, dA) ∈ teamGoals df := tgRow_mem_of_key df _ hA
  have hrowB : tgRow df (g, B, dB) ∈ teamGoals df := tgRow_mem_of_key df _ hB
  have hchar := teamGoals_game_char df g A B dA dB hshape
  have hgB : (tgRow df (g, B, dB)).goals = teamGoalsFor df g B := by
    show goalsOfKey df (g, B, dB) = teamGoalsFor df g B
    apply goalsOfKey_eq_teamGoalsFor
    intro o ho h1 h2
    rcases hshape o ho h1 with ⟨ht, _⟩ | ⟨_, hd⟩
    · exact absurd rfl (by rw [← h2, ht] at hAB; exact hAB)
    · exact hd
  have key := tds_filter_singleton df (fun t => decide (t.game_id = g ∧ t.team = A))
    (tgRow df (g, A, dA)) (tgRow df (g, B, dB)) hrowA hrowB rfl
    (by simpa [tgRow] using hAB)
    (by simp [tgRow])
    (by
      intro a b ha hb hbg hne hp
      simp only [decide_eq_true_eq] at hp
      have hag : a.game_id = g := hp.1
      have hat : a.team = A := hp.2
      have haa : a = tgRow df (g, A, dA) := by
        rcases hchar a ha hag with h | h
        · exact h
        · exfalso
          have : a.team = B := by rw [h]; rfl
          exact hAB (hat ▸ this ▸ rfl)
      have hbb : b = tgRow df (g, B, dB) := by
        rcases hchar b hb (by rw [hbg, haa]; rfl) with h | h
        · exfalso
          apply hne
          rw [hat, h]
          rfl
        · exact h
      exact ⟨haa, hbb⟩)
  rw [key, hgB]
  rfl

/-- A game whose observations all carry a single team produces no
goals-allowed rows at all. -/
theorem tds_single_team (df : List Obs) (g : Nat) (A : String)
    (hall : ∀ o ∈ df, o.game_id = g → o.team = A) :
    (teamDefensiveStats df).filter (fun t => t.game_id = g) = [] := by
  have hteam : ∀ y ∈ teamGoals df, y.game_id = g → y.team = A := by
    intro y hy hyg
    obtain ⟨k, hk, rfl⟩ := (mem_teamGoals_iff df y).mp hy
    obtain ⟨o, ho, rfl⟩ := List.mem_map.mp hk
    exact hall o ho hyg
  rw [List.filter_eq_nil_iff]
  intro t ht
  unfold teamDefensiveStats at ht
  obtain ⟨pr, hpr, rfl⟩ := List.mem_map.mp ht
  have hprf := List.mem_filter.mp hpr
  have hmem := hprf.1
  unfold mergedGoals at hmem
  obtain ⟨a, ha, hin⟩ := List.mem_flatMap.mp hmem
  obtain ⟨b, hbf, hab⟩ := List.mem_map.mp hin
  have hbfm := List.mem_filter.mp hbf
  have hbg : b.game_id = a.game_id := of_decide_eq_true hbfm.2
  subst hab
  have hne : ¬ a.team = b.team := of_decide_eq_true hprf.2
  simp only [decide_eq_true_eq]
  intro hag
  apply hne
  rw [hteam a ha hag, hteam b hbfm.1 (by rw [hbg]; exact hag)]

/-- Claim C3 (amended): in a game with exactly two distinct teams (each with
a single game date, as the grouping key includes the date), each team is
charged exactly one goals-allowed row holding the summed goals of the
unique other team; a game whose observations involve at most one team
yields no goals-allowed rows.  (A game with three or more distinct teams is
NOT excluded — see the counterexample theorem.) -/
theorem two_team_goals_allowed :
    (∀ (df : List Obs) (g : Nat) (A B : String) (dA dB : Nat),
      A ≠ B →
      (∀ o ∈ df, o.game_id = g →
        (o.team = A ∧ o.date = dA) ∨ (o.team = B ∧ o.date = dB)) →
      (g, A, dA) ∈ df.map obsKey →
      (g, B, dB) ∈ df.map obsKey →
      (teamDefensiveStats df).filter (fun t => t.game_id = g ∧ t.team = A) =
        [{ date := dA, game_id := g, team := A,
           goals_allowed := teamGoalsFor df g B }] ∧
      (teamDefensiveStats df).filter (fun t => t.game_id = g ∧ t.team = B) =
        [{ date := dB, game_id := g, team := B,
           goals_allowed := teamGoalsFor df g A }]) ∧
    (∀ (df : List Obs) (g : Nat) (A : String),
      (∀ o ∈ df, o.game_id = g → o.team = A) →
      (teamDefensiveStats df).filter (fun t => t.game_id = g) = []) := by
  constructor
  · intro df g A B dA dB hAB hshape hA hB
    refine ⟨tds_two_team_filter df g A B dA dB hAB hshape hA hB, ?_⟩
    exact tds_two_team_filter df g B A dB dA hAB.symm
      (fun o ho hg => (hshape o ho hg).symm) hB hA
  · exact tds_single_team

/-- Witness for C3 on the spec example: Team A scores 3 and Team B scores 1
in game 1, so A is charged goals_allowed = 1 and B is charged 3. -/
theorem two_team_goals_allowed_witness :
    (teamDefensiveStats [exC3df.get ⟨0, by decide⟩,
        { exC3df.get ⟨1, by decide⟩ with team := "B" }]).filter
      (fun t => t.game_id = 1 ∧ t.team = "A") =
      [{ date := 4, game_id := 1, team := "A", goals_allowed := 1 }] := by
  have h := (two_team_goals_allowed.1
    [exC3df.get ⟨0, by decide⟩, { exC3df.get ⟨1, by decide⟩ with team := "B" }]
    1 ("A") ("B") 4 4 (by decide) (by decide) (by decide) (by decide)).1
  rw [h]
  have : teamGoalsFor
      [exC3df.get ⟨0, by decide⟩, { exC3df.get ⟨1, by decide⟩ with team := "B" }]
      1 ("B") = 1 := by decide
  rw [this]

/-! ## Inference side: rows of nhl_featured_stats.csv
    (predict_tonight.py, app.py) -/

/-- One row of the persisted featured table: the observation columns after
processing plus the rolling feature columns, all numeric (fillna(0) has
already run). -/
structure FRow where
  player_id : Nat
  player_name : String
  team : String
  date : Nat
  goals : ℚ
  shots : ℚ
  hits : ℚ
  blocked_shots : ℚ
  penalty_minutes : ℚ
  time_on_ice : ℚ
  powerplay_toi : ℚ
  shorthanded_toi : ℚ
  avg_goals : ℚ
  avg_shots : ℚ
  avg_time_on_ice : ℚ
  avg_powerplay : ℚ
  avg_hits : ℚ
  opp_ga_avg : ℚ
deriving DecidableEq, Repr

/-- sort_values(by=Date) comparison, embedded as a stable sort. -/
def dateLeF (a b : FRow) : Prop := a.date ≤ b.date

instance : DecidableRel dateLeF := fun a b => Nat.decLe a.date b.date

instance : IsTotal FRow dateLeF := ⟨fun a b => Nat.le_total a.date b.date⟩

instance : IsTrans FRow dateLeF := ⟨fun _ _ _ h1 h2 => Nat.le_trans h1 h2⟩

/-- predict_tonight.py line 62 and 67: filter the featured table to the
player by name, sort by date, take the last row (iloc[-1]).  No comparison
with the target prediction date is made. -/
def snapshot (hist : List FRow) (pname : String) : Option FRow :=
  ((hist.filter (fun r => r.player_name = pname)).insertionSort dateLeF).getLast?

theorem sorted_dateLeF_getLast_max :
    ∀ (l : List FRow) (h : l ≠ []), l.Sorted dateLeF →
      ∀ x ∈ l, x.date ≤ (l.getLast h).date := by
  intro l
  induction l with
  | nil => intro h; exact absurd rfl h
  | cons a t ih =>
    intro h hs x hx
    cases t with
    | nil =>
      rcases List.mem_cons.mp hx with rfl | hx
      · exact le_refl _
      · cases hx
    | cons b u =>
      rw [List.getLast_cons (List.cons_ne_nil b u)]
      rw [List.sorted_cons] at hs
      rcases List.mem_cons.mp hx with rfl | hx
      · exact hs.1 _ (List.getLast_mem (List.cons_ne_nil b u))
      · exact ih (List.cons_ne_nil b u) hs.2 x hx

/-- Claim C6 (amended): the inference-time snapshot row for a player is that
player's most recent row in the historical table overall — the maximum
date present, with no comparison against the target prediction date.  (The
claim's strictly-before-the-target-date filter does not exist in the code;
see the counterexample theorem.) -/
theorem snapshot_is_latest_overall :
    ∀ (hist : List FRow) (pname : String) (r : FRow),
      snapshot hist pname = some r →
      r ∈ hist ∧ r.player_name = pname ∧
      ∀ x ∈ hist, x.player_name = pname → x.date ≤ r.date := by
  intro hist pname r hsnap
  unfold snapshot at hsnap
  set s := (hist.filter (fun x => x.player_name = pname)).insertionSort dateLeF with hsdef
  cases hse : s with
  | nil => rw [hse] at hsnap; cases hsnap
  | cons a u =>
    have hne : s ≠ [] := by rw [hse]; exact List.cons_ne_nil a u
    have hr : r = s.getLast hne := by
      rw [List.getLast?_eq_getLast s hne] at hsnap
      exact (Option.some.injEq _ _ ▸ hsnap).symm
    have hmem : r ∈ s := hr ▸ List.getLast_mem hne
    have hperm : s.Perm (hist.filter (fun x => x.player_name = pname)) :=
      List.perm_insertionSort dateLeF _
    have hmemf : r ∈ hist.filter (fun x => x.player_name = pname) :=
      hperm.mem_iff.mp hmem
    have hrf := List.mem_filter.mp hmemf
    refine ⟨hrf.1, of_decide_eq_true hrf.2, ?_⟩
    intro x hx hxp
    have hxf : x ∈ hist.filter (fun y => y.player_name = pname) :=
      List.mem_filter.mpr ⟨hx, decide_eq_true hxp⟩
    have hxs : x ∈ s := hperm.mem_iff.mpr hxf
    have hsorted : s.Sorted dateLeF := List.sorted_insertionSort dateLeF _
    rw [hr]
    exact sorted_dateLeF_getLast_max s hne hsorted x hxs

def exC6r5 : FRow :=
  { player_id := 1, player_name := "P", team := "A", date := 5,
    goals := 0, shots := 0, hits := 0, blocked_shots := 0, penalty_minutes := 0,
    time_on_ice := 0, powerplay_toi := 0, shorthanded_toi := 0,
    avg_goals := 0, avg_shots := 0, avg_time_on_ice := 0, avg_powerplay := 0,
    avg_hits := 0, opp_ga_avg := 0 }

def exC6r20 : FRow := { exC6r5 with date := 20 }

def exC6hist : List FRow := [exC6r5, exC6r20]

/-- Counterexample to C6: for a target prediction date of 10, the code picks
the row dated 20 — an observation on/after the target date — as the
snapshot, even though a row strictly before the target date exists. -/
theorem snapshot_uses_row_after_target_date :
    snapshot exC6hist ("P") = some exC6r20 ∧
    ¬ exC6r20.date < 10 ∧ exC6r5 ∈ exC6hist ∧ exC6r5.date < 10 := by
  refine ⟨by decide, by decide, by decide, by decide⟩

/-- Witness for C6 (amended): its hypothesis holds at the concrete history,
where the snapshot is the maximal-date row. -/
theorem snapshot_is_latest_overall_witness :
    exC6r20 ∈ exC6hist ∧ exC6r20.player_name = "P" ∧
    ∀ x ∈ exC6hist, x.player_name = "P" → x.date ≤ exC6r20.date := by
  exact snapshot_is_latest_overall exC6hist ("P") exC6r20 (by decide)

/-! ## Inference-time per-player feature resolution (C5) -/

/-- The thirteen feature columns built for one candidate player. -/
structure InfRow where
  shots : ℚ
  hits : ℚ
  blocked_shots : ℚ
  penalty_minutes : ℚ
  time_on_ice : ℚ
  powerplay_toi : ℚ
  shorthanded_toi : ℚ
  avg_goals : ℚ
  avg_shots : ℚ
  avg_time_on_ice : ℚ
  avg_powerplay : ℚ
  avg_hits : ℚ
  opp_ga_avg : ℚ
deriving DecidableEq, Repr

/-- The features_dict of predict_tonight.py lines 83-97 / app.py lines
283-294: every column but the last comes from the player snapshot row; the
last is the resolved opponent defensive average. -/
def mkInfRow (recent : FRow) (oppGA : ℚ) : InfRow :=
  { shots := recent.shots, hits := recent.hits,
    blocked_shots := recent.blocked_shots,
    penalty_minutes := recent.penalty_minutes,
    time_on_ice := recent.time_on_ice, powerplay_toi := recent.powerplay_toi,
    shorthanded_toi := recent.shorthanded_toi, avg_goals := recent.avg_goals,
    avg_shots := recent.avg_shots, avg_time_on_ice := recent.avg_time_on_ice,
    avg_powerplay := recent.avg_powerplay, avg_hits := recent.avg_hits,
    opp_ga_avg := oppGA }

inductive PredOutcome where
  | skipped (reason : String)
  | predicted (features : InfRow)
deriving DecidableEq, Repr

/-- Lookup in the matchup dictionary built from the schedule. -/
def matchupLookup (m : List (String × String)) (team : String) : Option String :=
  (m.find? (fun p => p.1 = team)).map (fun p => p.2)

/-- The per-player loop body of predict_tonight.py lines 61-102: skip when
the player has no rows; resolve the opponent from the schedule (skip when
the team is not playing); then — lines 75-79 — skip the player when the
opponent team has no historical rows at all, else read Opp_GA_Avg_Last_10
from the opponent team's latest historical row. -/
def predictTonightPlayer (hist : List FRow) (matchups : List (String × String))
    (pname : String) : PredOutcome :=
  match snapshot hist pname with
  | none => PredOutcome.skipped ("no historical data")
  | some recent =>
    match matchupLookup matchups recent.team with
    | none => PredOutcome.skipped ("team not playing tonight")
    | some opp =>
      match ((hist.filter (fun r => r.team = opp)).insertionSort dateLeF).getLast? with
      | none => PredOutcome.skipped ("no opponent history")
      | some orecent => PredOutcome.predicted (mkInfRow recent orecent.opp_ga_avg)

/-- app.py lines 262-263: keep, for each player id (ids grouped in sorted
order), the first row attaining that player's maximal date (idxmax). -/
def firstMaxByDate (h : FRow) (t : List FRow) : FRow :=
  t.foldl (fun best r => if best.date < r.date then r else best) h

def latestPerPlayer (hist : List FRow) : List FRow :=
  ((distinctFirst (hist.map (fun r => r.player_id))).insertionSort
      (fun a b : Nat => a ≤ b)).filterMap (fun pid =>
    match hist.filter (fun r => r.player_id = pid) with
    | [] => none
    | h :: t => some (firstMaxByDate h t))

/-- app.py line 264: latest_player_stats.drop_duplicates(subset=[Team],
keep=last).set_index(Team)[Opp_GA_Avg_Last_10] — one defensive average per
team name. -/
def latestTeamDefStats (hist : List FRow) : List (String × ℚ) :=
  (dropDupLast (fun r => r.team) (latestPerPlayer hist)).map
    (fun r => (r.team, r.opp_ga_avg))

def gaLookup (m : List (String × ℚ)) (team : String) : Option ℚ :=
  (m.find? (fun p => p.1 = team)).map (fun p => p.2)

/-- The per-player loop body of app.py lines 267-299: same skips for
missing history and team not playing, but the opponent defensive stat is
latest_team_def_stats.get(opponent_team, 0) — line 280 — so an unresolved
opponent yields 0 and the player is still predicted. -/
def appPlayerPredict (hist : List FRow) (matchups : List (String × String))
    (pname : String) : PredOutcome :=
  match snapshot hist pname with
  | none => PredOutcome.skipped ("no historical data")
  | some recent =>
    match matchupLookup matchups recent.team with
    | none => PredOutcome.skipped ("team not playing tonight")
    | some opp =>
      PredOutcome.predicted (mkInfRow recent ((gaLookup (latestTeamDefStats hist) opp).getD 0))

def exC5row : FRow :=
  { player_id := 9, player_name := "P", team := "A", date := 3,
    goals := 0, shots := 1, hits := 0, blocked_shots := 0, penalty_minutes := 0,
    time_on_ice := 0, powerplay_toi := 0, shorthanded_toi := 0,
    avg_goals := 0, avg_shots := 0, avg_time_on_ice := 0, avg_powerplay := 0,
    avg_hits := 0, opp_ga_avg := 2 }

def exC5hist : List FRow := [exC5row]

/-- Counterexample to C5: in predict_tonight.py, a player whose opponent has
no row in the historical data is skipped — excluded from the prediction —
rather than receiving a prediction with the feature filled with 0. -/
theorem unresolved_opponent_skips_player :
    predictTonightPlayer exC5hist [("A", "B")] ("P") =
      PredOutcome.skipped ("no opponent history") := by
  decide

/-- Claim C5 (amended): the fill-with-0 policy holds on the app.py path:
whenever the player has a snapshot and a scheduled opponent but the
opponent has no entry in the defensive-stats map, the feature is 0 and the
player is still predicted.  On the predict_tonight.py path, a player whose
opponent team has no historical rows is instead skipped. -/
theorem unresolved_opponent_fill_policy :
    (∀ (hist : List FRow) (matchups : List (String × String)) (pname : String)
       (recent : FRow) (opp : String),
      snapshot hist pname = some recent →
      matchupLookup matchups recent.team = some opp →
      gaLookup (latestTeamDefStats hist) opp = none →
      appPlayerPredict hist matchups pname =
        PredOutcome.predicted (mkInfRow recent 0)) ∧
    (∀ (hist : List FRow) (matchups : List (String × String)) (pname : String)
       (recent : FRow) (opp : String),
      snapshot hist pname = some recent →
      matchupLookup matchups recent.team = some opp →
      hist.filter (fun r => r.team = opp) = [] →
      predictTonightPlayer hist matchups pname =
        PredOutcome.skipped ("no opponent history")) := by
  constructor
  · intro hist matchups pname recent opp h1 h2 h3
    unfold appPlayerPredict
    simp only [h1, h2, h3, Option.getD_none]
  · intro hist matchups pname recent opp h1 h2 h3
    unfold predictTonightPlayer
    simp only [h1, h2, h3, List.insertionSort, List.getLast?]

/-- Witness for C5 (amended): at the concrete one-row history with opponent
B absent from the defensive map, app.py predicts the player with a zero
opponent feature, and predict_tonight.py skips. -/
theorem unresolved_opponent_fill_policy_witness :
    appPlayerPredict exC5hist [("A", "B")] ("Q") = PredOutcome.skipped ("no historical data") ∨
    appPlayerPredict exC5hist [("A", "B")] ("P") =
      PredOutcome.predicted (mkInfRow exC5row 0) := by
  right
  exact unresolved_opponent_fill_policy.1 exC5hist [("A", "B")] ("P") exC5row ("B")
    (by decide) (by decide) (by decide)

/-! ## Feature-contract column selection (C4) -/

/-- Column lookup in a one-row frame (column name to value). -/
def lookupCol (row : List (String × ℚ)) (c : String) : Option ℚ :=
  (row.find? (fun p => p.1 = c)).map (fun p => p.2)

/-- tonight_df[feature_order] (predict_tonight.py line 113, app.py lines 184
and 305): select the contract columns, in contract order; raise KeyError
naming a missing column if the frame lacks one; columns of the frame that
the contract does not name are silently dropped. -/
def selectCols (row : List (String × ℚ)) : List String → Except String (List ℚ)
  | [] => Except.ok []
  | c :: cs =>
    match lookupCol row c with
    | none => Except.error c
    | some v =>
      match selectCols row cs with
      | Except.error e => Except.error e
      | Except.ok vs => Except.ok (v :: vs)

/-- Claim C4 (amended): a missing contract column is a surfaced fatal error
(the KeyError carries a missing column name); when every contract column is
present the selection succeeds and returns exactly the contract columns in
contract order — extra resolver columns are silently ignored, not errors. -/
theorem contract_column_selection :
    (∀ (row : List (String × ℚ)) (cols : List String) (c : String),
      c ∈ cols → lookupCol row c = none →
      ∃ e, selectCols row cols = Except.error e ∧ e ∈ cols ∧ lookupCol row e = none) ∧
    (∀ (row : List (String × ℚ)) (cols : List String),
      (∀ c ∈ cols, (lookupCol row c).isSome) →
      selectCols row cols = Except.ok (cols.map (fun c => (lookupCol row c).getD 0))) := by
  constructor
  · intro row cols
    induction cols with
    | nil => intro c hc; cases hc
    | cons d t ih =>
      intro c hc hnone
      cases hd : lookupCol row d with
      | none =>
        exact ⟨d, by simp [selectCols, hd], List.mem_cons_self d t, hd⟩
      | some v =>
        have hct : c ∈ t := by
          rcases List.mem_cons.mp hc with rfl | h
          · rw [hd] at hnone; cases hnone
          · exact h
        obtain ⟨e, he, hem, hen⟩ := ih c hct hnone
        refine ⟨e, ?_, List.mem_cons_of_mem _ hem, hen⟩
        simp [selectCols, hd, he]
  · intro row cols
    induction cols with
    | nil => intro _; rfl
    | cons d t ih =>
      intro hall
      cases hd : lookupCol row d with
      | none =>
        have := hall d (List.mem_cons_self d t)
        rw [hd] at this
        cases this
      | some v =>
        have ht := ih (fun c hc => hall c (List.mem_cons_of_mem _ hc))
        simp [selectCols, hd, ht]

def exC4row : List (String × ℚ) := [("B", 1), ("A", 2), ("C", 3)]

/-- Counterexample to C4: a resolver frame with MORE columns than the
contract does not fail — the extra column C is silently dropped and the
kept columns are silently reordered into contract order, so the claim that
fewer, more, or differently-named columns all fail fatally is false for
the more-columns case. -/
theorem extra_columns_are_silently_dropped :
    selectCols exC4row ["A", "B"] = Except.ok [2, 1] ∧
    ("C", (3 : ℚ)) ∈ exC4row ∧ ("C" : String) ∉ ["A", "B"] := by
  refine ⟨rfl, by decide, by decide⟩

/-- Witness for C4 (amended): a frame lacking contract column A fails with a
surfaced error naming a missing column. -/
theorem contract_column_selection_witness :
    ∃ e, selectCols [("B", 1)] ["A", "B"] = Except.error e ∧
      e ∈ ["A", "B"] ∧ lookupCol [("B", 1)] e = none := by
  exact contract_column_selection.1 [("B", 1)] ["A", "B"] ("A")
    (List.mem_cons_self _ _) rfl

/-! ## Ranking of predictions (C7) -/

/-- One prediction-output row: name, predicted probability, raw goal count
of the underlying snapshot row (available in the app.py frame). -/
structure PRow where
  player_name : String
  prob : ℚ
  goals : ℚ
deriving DecidableEq, Repr

/-- sort_values(by=Goal_Probability, ascending=False)
(predict_tonight.py lines 123-125, app.py lines 189-191), embedded as a
stable sort: the only sort key is the probability. -/
def probDesc (a b : PRow) : Prop := b.prob ≤ a.prob

instance : DecidableRel probDesc := fun a b =>
  inferInstanceAs (Decidable (b.prob ≤ a.prob))

instance : IsTotal PRow probDesc := ⟨fun a b => le_total b.prob a.prob⟩

instance : IsTrans PRow probDesc := ⟨fun _ _ _ h1 h2 => le_trans h2 h1⟩

def rankByProb (l : List PRow) : List PRow := l.insertionSort probDesc

/-- Claim C7 (amended): the ranked output is the prediction rows sorted by
descending predicted probability; no secondary key is applied, so players
with equal probability keep their prior frame order (no goal-count
tie-break exists in the code). -/
theorem ranking_sorted_by_descending_probability :
    ∀ l : List PRow, (rankByProb l).Perm l ∧ (rankByProb l).Sorted probDesc :=
  fun l => ⟨List.perm_insertionSort probDesc l, List.sorted_insertionSort probDesc l⟩

def exC7 : List PRow := [⟨"A", 1, 1⟩, ⟨"B", 1, 5⟩]

/-- Counterexample to C7: two players with equal predicted probability are
left in frame order, here ASCENDING raw goal count (1 before 5), so ties
are not ordered by descending goal count even though the count is present. -/
theorem equal_prob_ties_not_ordered_by_goals :
    rankByProb exC7 = exC7 ∧
    (exC7.get ⟨0, by decide⟩).prob = (exC7.get ⟨1, by decide⟩).prob ∧
    (exC7.get ⟨0, by decide⟩).goals < (exC7.get ⟨1, by decide⟩).goals := by
  refine ⟨by decide, by decide, by decide⟩

/-! ## convert_time_to_seconds (2_process_data.py lines 3-8) -/

/-- A Python value as it can appear in the Time_On_Ice / PowerPlay_TOI /
ShortHanded_TOI cells: a string, a NaN float, None, or some other
non-string value (modelled by an integer). -/
inductive PyVal where
  | vstr (s : String)
  | vnan
  | vnone
  | vint (n : Int)
deriving DecidableEq, Repr

/-- Python str.split(":"): split at every colon, keeping empty fields. -/
def splitOnColon : List Char → List (List Char)
  | [] => [[]]
  | c :: rest =>
    match splitOnColon rest with
    | [] => [[c]]
    | f :: fs => if c = ':' then [] :: f :: fs else (c :: f) :: fs

/-- The code points CPython int() strips as surrounding whitespace
(Py_UNICODE_ISSPACE: ASCII whitespace plus NEL, NBSP and the Unicode
space separators). -/
def pyWhitespaceCodes : List Nat :=
  [9, 10, 11, 12, 13, 32, 133, 160, 5760, 8192, 8193, 8194, 8195, 8196,
   8197, 8198, 8199, 8200, 8201, 8202, 8232, 8233, 8239, 8287, 12288]

def isPySpace (c : Char) : Bool := pyWhitespaceCodes.contains c.toNat

/-- First code points of the Unicode decimal-digit runs (category Nd, from
the Unicode character database used by CPython): every decimal digit sits
in a run of ten consecutive code points carrying the values 0 to 9. -/
def ndRunStarts : List Nat :=
  [48, 1632, 1776, 1984, 2406, 2534, 2662, 2790, 2918, 3046, 3174, 3302,
   3430, 3558, 3664, 3792, 3872, 4160, 4240, 6112, 6160, 6470, 6608, 6784,
   6800, 6992, 7088, 7232, 7248, 42528, 43216, 43264, 43472, 43504, 43600,
   44016, 65296, 66720, 68912, 69734, 69872, 69942, 70096, 70384, 70736,
   70864, 71248, 71360, 71472, 71904, 72016, 72784, 73040, 73120, 92768,
   92864, 93008, 120782, 120792, 120802, 120812, 120822, 123200, 123632,
   125264, 130032]

/-- The decimal value of a Unicode decimal digit (Py_UNICODE_TODECIMAL). -/
def digitVal (c : Char) : Option Nat :=
  (ndRunStarts.find? (fun s => s ≤ c.toNat ∧ c.toNat < s + 10)).map
    (fun s => c.toNat - s)

def stripPySpaces (cs : List Char) : List Char :=
  ((cs.dropWhile isPySpace).reverse.dropWhile isPySpace).reverse

/-- PEP 515 digit groups after the first digit: further digits, with single
underscores allowed only between digits. -/
def parseDigitsUAux (acc : Nat) : List Char → Option Nat
  | [] => some acc
  | '_' :: [] => none
  | '_' :: c :: rest =>
    match digitVal c with
    | none => none
    | some d => parseDigitsUAux (10 * acc + d) rest
  | c :: rest =>
    match digitVal c with
    | none => none
    | some d => parseDigitsUAux (10 * acc + d) rest

/-- A nonempty digit sequence with PEP 515 underscore grouping: starts and
ends with a digit, single underscores strictly between digits. -/
def parseDigitsU : List Char → Option Nat
  | [] => none
  | c :: rest =>
    match digitVal c with
    | none => none
    | some d => parseDigitsUAux d rest

def pyDigitCount (cs : List Char) : Nat :=
  (cs.filter (fun c => (digitVal c).isSome)).length

/-- Python int(str): optional surrounding whitespace, an optional ASCII
sign, then one or more Unicode decimal digits with PEP 515 underscore
grouping; anything else raises ValueError (here: none).  CPython 3.11+
additionally raises ValueError when the string holds more than the default
sys.get_int_max_str_digits() = 4300 digits. -/
def pyIntParse (cs : List Char) : Option Int :=
  let t := stripPySpaces cs
  if pyDigitCount t ≤ 4300 then
    match t with
    | '-' :: ds => (parseDigitsU ds).map (fun n => -(n : Int))
    | '+' :: ds => (parseDigitsU ds).map (fun n => ((n : Int)))
    | ds => (parseDigitsU ds).map (fun n => ((n : Int)))
  else none

/-- minutes, seconds = map(int, time_str.split(":")) — the lazy map is
forced by the two-target unpacking, so a wrong field count or a bad int
conversion raises ValueError; both are routed to the except branch. -/
def parseFields : List (List Char) → Option (List Int)
  | [] => some []
  | f :: fs =>
    match pyIntParse f with
    | none => none
    | some n =>
      match parseFields fs with
      | none => none
      | some ns => some (n :: ns)

/-- 2_process_data.py lines 3-8: NaN or non-string values give 0;
a MM:SS string gives minutes*60 + seconds; a ValueError (wrong number of
colon-separated fields, or a non-integer field) gives 0. -/
def convert_time_to_seconds (v : PyVal) : Int :=
  match v with
  | PyVal.vstr s =>
    match parseFields (splitOnColon s.data) with
    | some [m, sec] => m * 60 + sec
    | _ => 0
  | _ => 0

theorem parseFields_length :
    ∀ (xs : List (List Char)) (ys : List Int), parseFields xs = some ys →
      ys.length = xs.length := by
  intro xs
  induction xs with
  | nil =>
    intro ys h
    cases h
    rfl
  | cons a t ih =>
    intro ys h
    cases hp : pyIntParse a with
    | none => rw [parseFields, hp] at h; cases h
    | some n =>
      rw [parseFields, hp] at h
      cases hr : parseFields t with
      | none => rw [hr] at h; cases h
      | some ns =>
        rw [hr] at h
        cases h
        simp [ih ns hr]

theorem parseFields_cons_inv (a : List Char) (t : List (List Char)) (ys : List Int)
    (h : parseFields (a :: t) = some ys) :
    ∃ n ns, pyIntParse a = some n ∧ parseFields t = some ns ∧ ys = n :: ns := by
  cases hp : pyIntParse a with
  | none => rw [parseFields, hp] at h; cases h
  | some n =>
    rw [parseFields, hp] at h
    cases hr : parseFields t with
    | none => rw [hr] at h; cases h
    | some ns =>
      rw [hr] at h
      cases h
      exact ⟨n, ns, rfl, rfl, rfl⟩

/-- Claim C9: convert_time_to_seconds is total — NaN and non-string inputs
give 0, a two-field MM:SS string with integer fields gives MM*60 + SS, and
every other string gives 0. -/
theorem convert_time_total_behavior :
    (∀ v : PyVal, (∀ s, v ≠ PyVal.vstr s) → convert_time_to_seconds v = 0) ∧
    (∀ (s : String) (a b : List Char) (m sec : Int),
      splitOnColon s.data = [a, b] →
      pyIntParse a = some m → pyIntParse b = some sec →
      convert_time_to_seconds (PyVal.vstr s) = m * 60 + sec) ∧
    (∀ s : String,
      (¬ ∃ a b m sec, splitOnColon s.data = [a, b] ∧
        pyIntParse a = some m ∧ pyIntParse b = some sec) →
      convert_time_to_seconds (PyVal.vstr s) = 0) := by
  refine ⟨?_, ?_, ?_⟩
  · intro v hv
    cases v with
    | vstr s => exact absurd rfl (hv s)
    | vnan => rfl
    | vnone => rfl
    | vint n => rfl
  · intro s a b m sec hsplit hpa hpb
    simp only [convert_time_to_seconds]
    rw [hsplit]
    simp [parseFields, hpa, hpb]
  · intro s hnot
    simp only [convert_time_to_seconds]
    cases hpf : parseFields (splitOnColon s.data) with
    | none => rfl
    | some ys =>
      match ys with
      | [] => rfl
      | [y] => rfl
      | [y1, y2] =>
        exfalso
        have hlen : (splitOnColon s.data).length = 2 := by
          have := parseFields_length _ _ hpf
          simpa using this.symm
        obtain ⟨a, b, hab⟩ := List.length_eq_two.mp hlen
        rw [hab] at hpf
        obtain ⟨n, ns, hn, hns, hys⟩ := parseFields_cons_inv a [b] _ hpf
        obtain ⟨n2, ns2, hn2, hns2, hys2⟩ := parseFields_cons_inv b [] _ hns
        exact hnot ⟨a, b, n, n2, hab, hn, hn2⟩
      | y1 :: y2 :: y3 :: t => rfl

/-- Witness for C9: the string 12:34 converts to 12*60 + 34 = 754, and a
NaN converts to 0. -/
theorem convert_time_total_behavior_witness :
    convert_time_to_seconds (PyVal.vstr ("12:34")) = 754 ∧
    convert_time_to_seconds PyVal.vnan = 0 := by
  constructor
  · have h := convert_time_total_behavior.2.1 ("12:34") ['1', '2'] ['3', '4'] 12 34
      (by decide) (by decide) (by decide)
    rw [h]
    decide
  · exact convert_time_total_behavior.1 PyVal.vnan (fun s h => by cases h)

/-! ## Deduplication of the record store (4_deduplicate_data.py) -/

/-- One raw row of nhl_historical_stats.csv (dates and durations still
strings, exactly as the dedup script reads them). -/
structure RawRow where
  game_id : Nat
  player_id : Nat
  date : String
  player_name : String
  team : String
  goals : Int
  assists : Int
  shots : Int
  hits : Int
  blocked_shots : Int
  penalty_minutes : Int
  time_on_ice : String
  powerplay_toi : String
  shorthanded_toi : String
deriving DecidableEq, Repr

/-- unique_cols = [Game_ID, Player_ID, Date] (4_deduplicate_data.py line 15). -/
def dedupKey (r : RawRow) : Nat × Nat × String := (r.game_id, r.player_id, r.date)

/-- df.drop_duplicates(subset=unique_cols, keep=last) (line 19). -/
def dedupe (l : List RawRow) : List RawRow := dropDupLast dedupKey l

/-- Lines 21-30: the file is rewritten with the deduplicated frame only when
rows_removed > 0; otherwise nothing is written (none). -/
def dedupScript (l : List RawRow) : Option (List RawRow) :=
  if 0 < l.length - (dedupe l).length then some (dedupe l) else none

/-- Claim C8: deduplication is idempotent — running the keyed
drop-duplicates (keep last) twice gives exactly the rows (hence the row
count) of running it once. -/
theorem dedupe_idempotent : ∀ l : List RawRow, dedupe (dedupe l) = dedupe l :=
  fun l => dropDupLast_idem dedupKey l

/-- Claim C10: the dedup pass only deletes rows — the kept rows are the
original rows, unchanged and in their original relative order (a sublist);
and when no (Game_ID, Player_ID, Date) key is duplicated the store file is
not rewritten at all. -/
theorem dedupe_only_deletes :
    ∀ l : List RawRow,
      (dedupe l).Sublist l ∧
      ((l.map dedupKey).Nodup → dedupScript l = none) := by
  intro l
  refine ⟨dropDupLast_sublist dedupKey l, ?_⟩
  intro hnd
  have heq : dedupe l = l := dropDupLast_eq_self_of_nodup dedupKey l hnd
  unfold dedupScript
  rw [heq]
  simp

def exC10row1 : RawRow :=
  { game_id := 1, player_id := 1, date := "2024-01-01", player_name := "P",
    team := "A", goals := 1, assists := 0, shots := 3, hits := 0,
    blocked_shots := 0, penalty_minutes := 0, time_on_ice := "15:00",
    powerplay_toi := "02:00", shorthanded_toi := "00:00" }

def exC10row2 : RawRow := { exC10row1 with player_id := 2, shots := 5 }

def exC10store : List RawRow := [exC10row1, exC10row2]

/-- Witness for C10: a store with two distinct keys is kept as a sublist of
itself and the file is not rewritten. -/
theorem dedupe_only_deletes_witness :
    (dedupe exC10store).Sublist exC10store ∧ dedupScript exC10store = none :=
  ⟨(dedupe_only_deletes exC10store).1,
   (dedupe_only_deletes exC10store).2 (by decide)⟩

end NHLPred
